import Mathlib

set_option autoImplicit false

namespace VoiceTalk

/-! ## Quota management

Embedding of `src/src/ai/quota_manager.py` together with the
`APIQuotaTracker` row type from `src/src/database/models.py`.

Timestamps (`datetime`) are modelled as an integer number of seconds, and
`datetime.now()` becomes an explicit `now : Int` argument of each operation.
Python's `timedelta.days` is the floor of the difference in seconds divided
by `86400`, hence `Int.fdiv` below.  The SQLAlchemy session is modelled as
explicit state passing of the list of table rows, in insertion order;
`query(...).filter_by(service_name=s).first()` is a first-match lookup. -/

/-- `AIBackend` enum from `quota_manager.py` (`FALLBACK` is the fixed canned
response). -/
inductive AIBackend where
  | HUGGINGFACE
  | OLLAMA
  | FALLBACK
  deriving DecidableEq, Repr

/-- One row of the `api_quota_tracker` table (class `APIQuotaTracker` in
`models.py`); the `id` primary key is irrelevant to the claims and omitted. -/
structure APIQuotaTracker where
  service_name : String
  daily_calls : Int
  daily_limit : Int
  last_reset_date : Int
  is_quota_exceeded : Bool
  updated_at : Int
  deriving DecidableEq, Repr

/-- `session.query(APIQuotaTracker).filter_by(service_name=s).first()`. -/
def findTracker (store : List APIQuotaTracker) (s : String) : Option APIQuotaTracker :=
  store.find? (fun t => t.service_name == s)

/-- Mutating the (first) row whose `service_name` is `s` and committing:
the ORM row update performed by `check_quota` and `track_usage`. -/
def updateTracker (store : List APIQuotaTracker) (s : String)
    (f : APIQuotaTracker → APIQuotaTracker) : List APIQuotaTracker :=
  match store with
  | [] => []
  | t :: ts => if t.service_name == s then f t :: ts else t :: updateTracker ts s f

/-- `QuotaManager.DEFAULT_QUOTAS`.  The two `float("inf")` entries are stored
by `_initialize_quota_trackers` as `999999` (`int(limit) if limit != float("inf")
else 999999`), so the stored limits are used directly here. -/
def DEFAULT_QUOTAS : List (String × Int) :=
  [("huggingface", 1000), ("azure_tts", 5000000), ("vosk", 999999), ("ollama", 999999)]

/-- `QuotaManager._initialize_quota_trackers`: for each default service with
no row yet, insert a fresh row with zero usage and the configured limit.
Column defaults from `models.py`: `daily_calls = 0` is explicit in the code,
`last_reset_date` gets `server_default=func.now()`, `is_quota_exceeded`
defaults to `False`. -/
def init_quota_trackers (now : Int) (store : List APIQuotaTracker) : List APIQuotaTracker :=
  DEFAULT_QUOTAS.foldl
    (fun st p =>
      match findTracker st p.1 with
      | some _ => st
      | none =>
        st ++ [{ service_name := p.1, daily_calls := 0, daily_limit := p.2,
                 last_reset_date := now, is_quota_exceeded := false, updated_at := now }])
    store

/-- Python `(now - last).days` for two timestamps in seconds:
`timedelta.days` is floor division of the total seconds by 86400. -/
def timedeltaDays (last now : Int) : Int :=
  Int.fdiv (now - last) 86400

/-- Modelled from the spec: the calendar date of a timestamp, as a day index
(day `d` covers the half-open interval of seconds `[86400*d, 86400*(d+1))`).
Used only to compare the spec's day-boundary wording with the code. -/
def specCalendarDay (t : Int) : Int := Int.fdiv t 86400

/-- The row mutation of `check_quota`'s day-boundary reset:
`tracker.daily_calls = 0; tracker.last_reset_date = datetime.now()`.
Note it does not touch `is_quota_exceeded`. -/
def resetRow (now : Int) (t : APIQuotaTracker) : APIQuotaTracker :=
  { t with daily_calls := 0, last_reset_date := now }

/-- The row mutation of `track_usage`:
`tracker.daily_calls += units; tracker.updated_at = datetime.now();
tracker.is_quota_exceeded = tracker.daily_calls >= tracker.daily_limit`. -/
def trackRow (now units : Int) (t : APIQuotaTracker) : APIQuotaTracker :=
  { t with daily_calls := t.daily_calls + units,
           updated_at := now,
           is_quota_exceeded := decide (t.daily_calls + units ≥ t.daily_limit) }

/-- `QuotaManager.check_quota`.  Returns `(quota_available, calls_remaining)`
together with the store after the possible day-boundary reset commit.
An absent row returns `(True, 999999)` ("assume unlimited if not tracked"). -/
def check_quota (now : Int) (store : List APIQuotaTracker) (service_name : String) :
    (Bool × Int) × List APIQuotaTracker :=
  match findTracker store service_name with
  | none => ((true, 999999), store)
  | some tracker =>
    if 1 ≤ timedeltaDays tracker.last_reset_date now then
      let tracker2 : APIQuotaTracker := resetRow now tracker
      ((decide (tracker2.daily_calls < tracker2.daily_limit),
        max 0 (tracker2.daily_limit - tracker2.daily_calls)),
       updateTracker store service_name (resetRow now))
    else
      ((decide (tracker.daily_calls < tracker.daily_limit),
        max 0 (tracker.daily_limit - tracker.daily_calls)), store)

/-- `QuotaManager.track_usage`: if a row exists, add `units` to
`daily_calls`, refresh `updated_at`, and recompute `is_quota_exceeded`;
if no row exists, nothing happens. -/
def track_usage (now : Int) (store : List APIQuotaTracker) (service_name : String)
    (units : Int) : List APIQuotaTracker :=
  match findTracker store service_name with
  | none => store
  | some _ => updateTracker store service_name (trackRow now units)

/-- `QuotaManager.get_best_ai_backend`: HuggingFace when its quota check
passes with calls remaining, otherwise Ollama. -/
def get_best_ai_backend (now : Int) (store : List APIQuotaTracker) :
    AIBackend × List APIQuotaTracker :=
  let r := check_quota now store "huggingface"
  if r.1.1 && decide (0 < r.1.2) then (AIBackend.HUGGINGFACE, r.2)
  else (AIBackend.OLLAMA, r.2)

/-- Spec section 3 invariant on one row, as a decidable check:
`exceededFlag == (dailyCalls >= dailyLimit)`. -/
def quotaInvariant (t : APIQuotaTracker) : Bool :=
  t.is_quota_exceeded == decide (t.daily_limit ≤ t.daily_calls)

/-! ### Basic lemmas about the quota store -/

theorem timedeltaDays_one_le_iff (last now : Int) :
    1 ≤ timedeltaDays last now ↔ 86400 ≤ now - last := by
  unfold timedeltaDays
  rw [Int.fdiv_eq_ediv _ (by norm_num)]
  omega

theorem sub_lt_day_of_same_calendar_day (a b : Int)
    (h : specCalendarDay a = specCalendarDay b) (_hab : a ≤ b) : b - a < 86400 := by
  unfold specCalendarDay at h
  rw [Int.fdiv_eq_ediv _ (by norm_num), Int.fdiv_eq_ediv _ (by norm_num)] at h
  omega

theorem findTracker_updateTracker (store : List APIQuotaTracker) (s : String)
    (f : APIQuotaTracker → APIQuotaTracker)
    (hf : ∀ t, (f t).service_name = t.service_name) :
    findTracker (updateTracker store s f) s = (findTracker store s).map f := by
  induction store with
  | nil => rfl
  | cons t ts ih =>
    by_cases h : t.service_name == s
    · simp [findTracker, updateTracker, h, List.find?, hf t]
    · simpa [findTracker, updateTracker, h, List.find?, hf t] using ih

theorem check_quota_absent (now : Int) (store : List APIQuotaTracker) (s : String)
    (h : findTracker store s = none) :
    check_quota now store s = ((true, 999999), store) := by
  unfold check_quota
  rw [h]

theorem check_quota_found_rollover (now : Int) (store : List APIQuotaTracker)
    (s : String) (t : APIQuotaTracker) (h : findTracker store s = some t)
    (hd : 86400 ≤ now - t.last_reset_date) :
    check_quota now store s =
      ((decide (0 < t.daily_limit), max 0 t.daily_limit),
       updateTracker store s (resetRow now)) := by
  have hd2 : 1 ≤ timedeltaDays t.last_reset_date now :=
    (timedeltaDays_one_le_iff t.last_reset_date now).mpr hd
  unfold check_quota
  rw [h]
  simp [hd2]
  unfold resetRow
  simp

theorem check_quota_found_no_rollover (now : Int) (store : List APIQuotaTracker)
    (s : String) (t : APIQuotaTracker) (h : findTracker store s = some t)
    (hd : now - t.last_reset_date < 86400) :
    check_quota now store s =
      ((decide (t.daily_calls < t.daily_limit),
        max 0 (t.daily_limit - t.daily_calls)), store) := by
  have hd2 : ¬ 1 ≤ timedeltaDays t.last_reset_date now := by
    rw [timedeltaDays_one_le_iff]
    omega
  unfold check_quota
  rw [h]
  simp [hd2]

theorem track_usage_absent (now : Int) (store : List APIQuotaTracker) (s : String)
    (u : Int) (h : findTracker store s = none) : track_usage now store s u = store := by
  unfold track_usage
  rw [h]

theorem track_usage_found (now : Int) (store : List APIQuotaTracker) (s : String)
    (u : Int) (t : APIQuotaTracker) (h : findTracker store s = some t) :
    track_usage now store s u = updateTracker store s (trackRow now u) := by
  unfold track_usage
  rw [h]

/-! ### Claims C1, C2, C4, C5, C10 -/

/-- **C1** (counterexample): a counter whose `lastResetTimestamp` is one
second before midnight is on an earlier calendar date than one second later,
yet `check_quota` at `now = 86400` performs no reset: `daily_calls` stays 5
and `last_reset_date` stays 86399, because `(now - last).days` is 0. -/
theorem check_day_rollover_calendar_counterexample :
    specCalendarDay 86399 < specCalendarDay 86400 ∧
    (check_quota 86400 [⟨"huggingface", 5, 1000, 86399, false, 0⟩] "huggingface").2 =
      [⟨"huggingface", 5, 1000, 86399, false, 0⟩] ∧
    (findTracker (check_quota 86400 [⟨"huggingface", 5, 1000, 86399, false, 0⟩]
        "huggingface").2 "huggingface").map (fun t => t.daily_calls) = some 5 := by
  decide

/-- **C1** (amended): `check_quota` resets `daily_calls` to 0 and sets
`last_reset_date = now` exactly when at least one full day (86400 seconds)
has elapsed since `last_reset_date` — not when the calendar date changes.
In particular a counter whose timestamp is less than a day old is never
reset, and (as the claim also states) a counter whose timestamp is on the
same calendar date, not in the future, is never reset. -/
theorem check_day_rollover_elapsed (now : Int) (store : List APIQuotaTracker)
    (s : String) (t : APIQuotaTracker) (h : findTracker store s = some t) :
    (86400 ≤ now - t.last_reset_date →
      findTracker (check_quota now store s).2 s =
        some { t with daily_calls := 0, last_reset_date := now }) ∧
    (now - t.last_reset_date < 86400 → (check_quota now store s).2 = store) ∧
    (specCalendarDay t.last_reset_date = specCalendarDay now →
      t.last_reset_date ≤ now → (check_quota now store s).2 = store) := by
  refine ⟨fun hd => ?_, fun hd => ?_, fun hcal hle => ?_⟩
  · rw [check_quota_found_rollover now store s t h hd]
    rw [findTracker_updateTracker store s (resetRow now) (fun t1 => rfl), h]
    rfl
  · rw [check_quota_found_no_rollover now store s t h hd]
  · rw [check_quota_found_no_rollover now store s t h
      (sub_lt_day_of_same_calendar_day t.last_reset_date now hcal hle)]

/-- Witness for `check_day_rollover_elapsed` at a concrete store. -/
theorem check_day_rollover_elapsed_witness :
    findTracker (check_quota 100000 [⟨"huggingface", 7, 1000, 0, false, 0⟩]
        "huggingface").2 "huggingface" = some ⟨"huggingface", 0, 1000, 100000, false, 0⟩ :=
  (check_day_rollover_elapsed 100000 [⟨"huggingface", 7, 1000, 0, false, 0⟩]
    "huggingface" ⟨"huggingface", 7, 1000, 0, false, 0⟩ rfl).1 (by norm_num)

/-- **C2** (counterexample): starting from an exceeded counter
(`daily_calls = 10 = daily_limit`, `is_quota_exceeded = True`), the
day-boundary reset performed by `check_quota` zeroes `daily_calls` but does
not recompute `is_quota_exceeded`, so after this mutating operation the flag
is `True` while `dailyCalls >= dailyLimit` is false. -/
theorem quota_invariant_reset_counterexample :
    (findTracker (check_quota 86400 [⟨"huggingface", 10, 10, 0, true, 0⟩]
        "huggingface").2 "huggingface").map
      (fun t => (t.is_quota_exceeded, decide (t.daily_limit ≤ t.daily_calls))) =
      some (true, false) := by
  decide

/-- **C2** (amended): the invariant `exceededFlag == (dailyCalls >= dailyLimit)`
holds for the touched counter after every `track_usage` and for every counter
created by `_initialize_quota_trackers`; it is *not* restored by the
day-boundary reset inside `check_quota`, which leaves the flag stale. -/
theorem quota_invariant_after_mutation (now : Int) (store : List APIQuotaTracker)
    (s : String) (u : Int) :
    ((findTracker (track_usage now store s u) s).all quotaInvariant = true) ∧
    ((init_quota_trackers now []).all quotaInvariant = true) := by
  constructor
  · cases h : findTracker store s with
    | none =>
      rw [track_usage_absent now store s u h, h]
      rfl
    | some t =>
      rw [track_usage_found now store s u t h]
      rw [findTracker_updateTracker store s (trackRow now u) (fun t1 => rfl), h]
      simp [quotaInvariant, trackRow]
  · rfl

/-- **C4** (counterexample): the very first `check` for a service with no
counter row does not create one — the store stays empty and the result is
the "assume unlimited" pair `(True, 999999)`, not the configured default. -/
theorem check_absent_counterexample :
    findTracker (check_quota 0 [] "huggingface").2 "huggingface" = none ∧
    check_quota 0 [] "huggingface" = ((true, 999999), []) := by
  decide

/-- **C4** (amended): `check_quota` on a service with no counter row returns
`(True, 999999)` and leaves the store completely unchanged — no lazy
creation.  Counters are instead created eagerly by
`_initialize_quota_trackers` at `QuotaManager` construction: starting from an
empty store it creates exactly the four configured services with zero usage
and their configured limits (999999 being the "unlimited" sentinel). -/
theorem check_absent_no_creation (now : Int) (store : List APIQuotaTracker)
    (s : String) (h : findTracker store s = none) :
    check_quota now store s = ((true, 999999), store) ∧
    (init_quota_trackers now []).map
        (fun t => (t.service_name, t.daily_calls, t.daily_limit)) =
      [("huggingface", 0, 1000), ("azure_tts", 0, 5000000),
       ("vosk", 0, 999999), ("ollama", 0, 999999)] :=
  ⟨check_quota_absent now store s h, rfl⟩

/-- Witness for `check_absent_no_creation` on the empty store. -/
theorem check_absent_no_creation_witness :
    check_quota 0 [] "azure_tts" = ((true, 999999), []) :=
  (check_absent_no_creation 0 [] "azure_tts" rfl).1

theorem check_quota_pos_of_ok (now : Int) (store : List APIQuotaTracker) (s : String)
    (h : (check_quota now store s).1.1 = true) : 0 < (check_quota now store s).1.2 := by
  cases hf : findTracker store s with
  | none => rw [check_quota_absent now store s hf]; norm_num
  | some t =>
    by_cases hd : 86400 ≤ now - t.last_reset_date
    · rw [check_quota_found_rollover now store s t hf hd] at h ⊢
      simp only [decide_eq_true_eq] at h
      simp
      omega
    · rw [check_quota_found_no_rollover now store s t hf (by omega)] at h ⊢
      simp only [decide_eq_true_eq] at h
      simp
      omega

/-- **C5**: `get_best_ai_backend` returns the cloud variant (HuggingFace)
exactly when the HuggingFace quota check reports availability, returns the
local variant (Ollama) otherwise, and never returns the canned `FALLBACK`
backend. -/
theorem ai_backend_selection (now : Int) (store : List APIQuotaTracker) :
    ((get_best_ai_backend now store).1 =
      if (check_quota now store "huggingface").1.1 then AIBackend.HUGGINGFACE
      else AIBackend.OLLAMA) ∧
    (get_best_ai_backend now store).1 ≠ AIBackend.FALLBACK := by
  unfold get_best_ai_backend
  cases hok : (check_quota now store "huggingface").1.1 with
  | false => simp [hok]
  | true =>
    have hpos := check_quota_pos_of_ok now store "huggingface" hok
    simp [hok, hpos]

/-- **C10**: `track_usage` for a service with no counter row returns the
store unchanged — nothing is created, nothing is modified. -/
theorem track_absent_noop (now : Int) (store : List APIQuotaTracker) (s : String)
    (u : Int) (h : findTracker store s = none) : track_usage now store s u = store :=
  track_usage_absent now store s u h

/-- Witness for `track_absent_noop` on a store holding an unrelated counter. -/
theorem track_absent_noop_witness :
    track_usage 3 [⟨"huggingface", 1, 1000, 0, false, 0⟩] "azure_tts" 2 =
      [⟨"huggingface", 1, 1000, 0, false, 0⟩] :=
  track_absent_noop 3 [⟨"huggingface", 1, 1000, 0, false, 0⟩] "azure_tts" 2 (by decide)

/-! ### Claim C3: fresh counter, then exhaustion after `L` tracked calls -/

/-- `n` successive calls of `track_usage(service, units=1)`. -/
def trackN (now : Int) (s : String) : Nat → List APIQuotaTracker → List APIQuotaTracker
  | 0, store => store
  | n + 1, store => track_usage now (trackN now s n store) s 1

theorem findTracker_track_usage (now : Int) (store : List APIQuotaTracker) (s : String)
    (u : Int) (t : APIQuotaTracker) (h : findTracker store s = some t) :
    findTracker (track_usage now store s u) s = some (trackRow now u t) := by
  rw [track_usage_found now store s u t h,
      findTracker_updateTracker store s (trackRow now u) (fun t1 => rfl), h]
  rfl

theorem findTracker_trackN (now : Int) (s : String) (n : Nat)
    (store : List APIQuotaTracker) (t : APIQuotaTracker)
    (h : findTracker store s = some t) :
    ∃ t2, findTracker (trackN now s n store) s = some t2 ∧
      t2.daily_calls = t.daily_calls + (n : Int) ∧
      t2.daily_limit = t.daily_limit ∧
      t2.last_reset_date = t.last_reset_date := by
  induction n with
  | zero => exact ⟨t, by simpa [trackN] using h, by simp, rfl, rfl⟩
  | succ n ih =>
    obtain ⟨t2, hf, hc, hl, hr⟩ := ih
    refine ⟨trackRow now 1 t2, ?_, ?_, ?_, ?_⟩
    · exact findTracker_track_usage now (trackN now s n store) s 1 t2 hf
    · simp only [trackRow, hc]
      push_cast
      ring
    · simpa [trackRow] using hl
    · simpa [trackRow] using hr

/-- **C3**: a counter with zero usage and positive limit `L` makes `check`
return `(True, L)`; after `track(service, 1)` has run exactly `L` times with
no day rollover in between, `check` returns `(False, 0)` — matching
`available = dailyCalls < dailyLimit` and
`remaining = max(0, dailyLimit - dailyCalls)`. -/
theorem fresh_and_exhausted_check (now now2 : Int) (store : List APIQuotaTracker)
    (s : String) (t : APIQuotaTracker) (L : Nat)
    (hfind : findTracker store s = some t)
    (hcalls : t.daily_calls = 0) (hlim : t.daily_limit = (L : Int)) (hL : 0 < L)
    (hday1 : now - t.last_reset_date < 86400)
    (hday2 : now2 - t.last_reset_date < 86400) :
    (check_quota now store s).1 = (true, (L : Int)) ∧
    (check_quota now2 (trackN now s L store) s).1 = (false, 0) := by
  constructor
  · rw [check_quota_found_no_rollover now store s t hfind hday1]
    simp only [hcalls, hlim, Prod.mk.injEq, decide_eq_true_eq]
    constructor
    · exact_mod_cast hL
    · omega
  · obtain ⟨t2, hf2, hc2, hl2, hr2⟩ := findTracker_trackN now s L store t hfind
    rw [check_quota_found_no_rollover now2 (trackN now s L store) s t2 hf2 (by omega)]
    simp only [hc2, hl2, hcalls, hlim, Prod.mk.injEq, decide_eq_false_iff_not]
    constructor
    · omega
    · omega

/-- Witness for `fresh_and_exhausted_check` with `L = 3`. -/
theorem fresh_and_exhausted_check_witness :
    (check_quota 10 [⟨"huggingface", 0, 3, 0, false, 0⟩] "huggingface").1 = (true, 3) ∧
    (check_quota 20 (trackN 10 "huggingface" 3 [⟨"huggingface", 0, 3, 0, false, 0⟩])
        "huggingface").1 = (false, 0) :=
  fresh_and_exhausted_check 10 20 [⟨"huggingface", 0, 3, 0, false, 0⟩] "huggingface"
    ⟨"huggingface", 0, 3, 0, false, 0⟩ 3 rfl rfl rfl (by decide) (by decide) (by decide)

/-! ## Audio processing

Embedding of `src/src/audio/processor.py` (class `AudioProcessor`).  An
audio buffer (`np.ndarray` of `int16` samples) is a `List Int`. -/

/-- The chunking loop of `AudioProcessor.split_audio_chunks`:
`for i in range(0, len(audio_data), chunk_size): chunk = audio_data[i:i+chunk_size]`,
appending each non-empty chunk.  Every produced slice is non-empty because
each loop index is below `len(audio_data)`.  Only called with a non-zero
`cs`. -/
def chunkList (cs : Nat) (xs : List Int) : List (List Int) :=
  if _hx : xs = [] then [] else
    if _hc : cs = 0 then [] else
      xs.take cs :: chunkList cs (xs.drop cs)
termination_by xs.length
decreasing_by
  simp only [List.length_drop]
  have := List.length_pos.mpr _hx
  omega

/-- `AudioProcessor.concatenate_chunks`: `np.concatenate(chunks)` in order;
the empty chunk list yields the empty array. -/
def concatenate_chunks : List (List Int) → List Int
  | [] => []
  | c :: rest => c ++ concatenate_chunks rest

/-- `AudioProcessor.split_audio_chunks`.
`chunk_size = int(sample_rate * chunk_duration_ms / 1000)` (float division
truncated, which for these non-negative integers is `Nat` division).  When
the computed size is 0, `range(0, len, 0)` raises `ValueError`, modelled as
`none`. -/
def split_audio_chunks (audio : List Int) (sample_rate chunk_duration_ms : Nat) :
    Option (List (List Int)) :=
  let chunk_size := sample_rate * chunk_duration_ms / 1000
  if chunk_size = 0 then none else some (chunkList chunk_size audio)

/-- Modelled from the spec (section 4.2): the chunk-length list it
describes — `n / cs` full chunks of `cs` samples each, then the shorter
final chunk of `n % cs` samples, included only when non-empty. -/
def specChunkSizes (cs n : Nat) : List Nat :=
  List.replicate (n / cs) cs ++ (if n % cs = 0 then [] else [n % cs])

theorem chunkList_nil (cs : Nat) : chunkList cs [] = [] := by
  unfold chunkList
  simp

theorem chunkList_cons (cs : Nat) (xs : List Int) (hx : xs ≠ []) (hc : cs ≠ 0) :
    chunkList cs xs = xs.take cs :: chunkList cs (xs.drop cs) := by
  conv_lhs => rw [chunkList]
  simp [hx, hc]

theorem concatenate_chunkList (cs : Nat) (hc : cs ≠ 0) (xs : List Int) :
    concatenate_chunks (chunkList cs xs) = xs := by
  by_cases hx : xs = []
  · subst hx
    rw [chunkList_nil]
    rfl
  · rw [chunkList_cons cs xs hx hc]
    have ih := concatenate_chunkList cs hc (xs.drop cs)
    rw [concatenate_chunks, ih, List.take_append_drop]
termination_by xs.length
decreasing_by
  simp only [List.length_drop]
  have := List.length_pos.mpr hx
  omega

theorem chunkList_lengths (cs : Nat) (hc : cs ≠ 0) (xs : List Int) :
    (chunkList cs xs).map List.length = specChunkSizes cs xs.length := by
  by_cases hx : xs = []
  · subst hx
    rw [chunkList_nil]
    simp [specChunkSizes]
  · have hlen : 0 < xs.length := List.length_pos.mpr hx
    rw [chunkList_cons cs xs hx hc]
    by_cases hle : xs.length ≤ cs
    · have hdrop : xs.drop cs = [] := List.drop_eq_nil_of_le hle
      rw [hdrop, chunkList_nil]
      simp only [List.map_cons, List.map_nil, List.length_take]
      unfold specChunkSizes
      by_cases heq : xs.length = cs
      · rw [heq, Nat.div_self (Nat.pos_of_ne_zero hc), Nat.mod_self]
        simp
      · have hlt : xs.length < cs := lt_of_le_of_ne hle heq
        rw [Nat.div_eq_of_lt hlt, Nat.mod_eq_of_lt hlt]
        rw [if_neg (by omega)]
        simp
        omega
    · have ih := chunkList_lengths cs hc (xs.drop cs)
      rw [List.map_cons, ih]
      simp only [List.length_take, List.length_drop]
      unfold specChunkSizes
      have hcs : cs ≤ xs.length := by omega
      rw [Nat.div_eq_sub_div (Nat.pos_of_ne_zero hc) hcs, Nat.mod_eq_sub_mod hcs,
        List.replicate_succ]
      simp [min_eq_left hcs]
termination_by xs.length
decreasing_by
  simp only [List.length_drop]
  omega

/-! ### Claims C6, C7 -/

/-- **C6** (counterexample): with `sample_rate = 1` and the positive chunk
duration `1` ms, `chunk_size = int(1*1/1000) = 0` and
`range(0, len, 0)` raises `ValueError`, so the round-trip law fails on the
one-sample frame `[0]`. -/
theorem split_roundtrip_counterexample :
    (split_audio_chunks [0] 1 1).map concatenate_chunks ≠ some [0] := by
  decide

/-- **C6** (amended): whenever the computed chunk size
`sample_rate * chunk_duration_ms / 1000` is non-zero (true for every
positive duration at any real audio sample rate ≥ 1000 Hz),
concatenating the chunks of `split_audio_chunks` restores the original
frame. -/
theorem split_concatenate_roundtrip (audio : List Int)
    (sample_rate chunk_duration_ms : Nat)
    (h : sample_rate * chunk_duration_ms / 1000 ≠ 0) :
    (split_audio_chunks audio sample_rate chunk_duration_ms).map concatenate_chunks =
      some audio := by
  unfold split_audio_chunks
  rw [if_neg h]
  simp [concatenate_chunkList (sample_rate * chunk_duration_ms / 1000) h audio]

/-- Witness for `split_concatenate_roundtrip` at the configured
16 kHz / 5000 ms parameters. -/
theorem split_concatenate_roundtrip_witness :
    (split_audio_chunks [1, 2, 3] 16000 5000).map concatenate_chunks = some [1, 2, 3] :=
  split_concatenate_roundtrip [1, 2, 3] 16000 5000 (by decide)

/-- **C7**: for a non-zero computed chunk size the chunk lengths of
`split_audio_chunks` are exactly the spec's description (full chunks of
`sampleRate*durationMs/1000` samples, a shorter non-empty final chunk), and
in the literal scenario an 185000-sample buffer at 16000 Hz with 5000 ms
chunks splits into sizes `[80000, 80000, 25000]`. -/
theorem split_chunk_sizes :
    (∀ (audio : List Int) (sample_rate chunk_duration_ms : Nat),
      sample_rate * chunk_duration_ms / 1000 ≠ 0 →
      (split_audio_chunks audio sample_rate chunk_duration_ms).map
          (fun chunks => chunks.map List.length) =
        some (specChunkSizes (sample_rate * chunk_duration_ms / 1000) audio.length)) ∧
    (split_audio_chunks (List.replicate 185000 (0 : Int)) 16000 5000).map
        (fun chunks => chunks.map List.length) = some [80000, 80000, 25000] := by
  have main : ∀ (audio : List Int) (sample_rate chunk_duration_ms : Nat),
      sample_rate * chunk_duration_ms / 1000 ≠ 0 →
      (split_audio_chunks audio sample_rate chunk_duration_ms).map
          (fun chunks => chunks.map List.length) =
        some (specChunkSizes (sample_rate * chunk_duration_ms / 1000) audio.length) := by
    intro audio sample_rate chunk_duration_ms h
    unfold split_audio_chunks
    rw [if_neg h]
    simp [chunkList_lengths (sample_rate * chunk_duration_ms / 1000) h audio]
  refine ⟨main, ?_⟩
  rw [main (List.replicate 185000 (0 : Int)) 16000 5000 (by decide)]
  rw [List.length_replicate]
  rfl

/-- Witness for the universally quantified part of `split_chunk_sizes`. -/
theorem split_chunk_sizes_witness :
    (split_audio_chunks [5, 6, 7] 2 1000).map
        (fun chunks => chunks.map List.length) = some [2, 1] := by
  have h := split_chunk_sizes.1 [5, 6, 7] 2 1000 (by decide)
  rw [h]
  decide

/-! ### Claim C8: clipping to the 16-bit signed range -/

/-- `np.clip(x, -32768, 32767)` on a single sample; the float arithmetic of
`processor.py` is modelled over `ℚ`. -/
def clipQ (x : ℚ) : ℚ := max (-32768) (min 32767 x)

/-- `.astype(np.int16)` applied to an already clipped value: converting a
float in `[-32768, 32767]` to `int16` truncates toward zero. -/
def truncQ (x : ℚ) : Int := if 0 ≤ x then ⌊x⌋ else ⌈x⌉

/-- `AudioProcessor.apply_gain`:
`np.clip(audio_data.astype(np.float32) * gain_linear, -32768, 32767).astype(np.int16)`.
The factor `gain_linear = 10 ** (gain_db / 20.0)` is transcendental in
`gain_db`; it enters the computation only as a pointwise scale factor, so
the embedding takes the evaluated factor as its parameter. -/
def apply_gain (audio : List Int) (gain_linear : ℚ) : List Int :=
  audio.map (fun s => truncQ (clipQ ((s : ℚ) * gain_linear)))

/-- `AudioProcessor.normalize_audio`.  `rms == 0` holds iff every sample is
zero, i.e. iff the sum of squared samples is zero; in that branch the input
is returned unchanged.  Otherwise the derived gain
`10 ** ((target_db - current_db) / 20.0)` — transcendental, taken here as
the parameter `gain` — is applied with the same clip-then-truncate step. -/
def normalize_audio (audio : List Int) (gain : ℚ) : List Int :=
  if (audio.map (fun s => s * s)).sum = 0 then audio
  else audio.map (fun s => truncQ (clipQ ((s : ℚ) * gain)))

/-- Membership of a sample in the signed 16-bit range. -/
def inInt16 (s : Int) : Bool := decide (-32768 ≤ s ∧ s ≤ 32767)

theorem truncQ_clipQ_range (x : ℚ) :
    -32768 ≤ truncQ (clipQ x) ∧ truncQ (clipQ x) ≤ 32767 := by
  have h1 : (-32768 : ℚ) ≤ clipQ x := le_max_left _ _
  have h2 : clipQ x ≤ 32767 := max_le (by norm_num) (min_le_left _ _)
  unfold truncQ
  by_cases h0 : 0 ≤ clipQ x
  · rw [if_pos h0]
    constructor
    · have hf : (0 : Int) ≤ ⌊clipQ x⌋ := Int.floor_nonneg.mpr h0
      omega
    · have hf : ((⌊clipQ x⌋ : ℚ)) ≤ 32767 := le_trans (Int.floor_le (clipQ x)) h2
      exact_mod_cast hf
  · rw [if_neg h0]
    push_neg at h0
    constructor
    · have hcl : (-32768 : ℚ) ≤ ((⌈clipQ x⌉ : ℚ)) := le_trans h1 (Int.le_ceil (clipQ x))
      exact_mod_cast hcl
    · have hcl : ⌈clipQ x⌉ ≤ 0 := Int.ceil_le.mpr (by push_cast; exact le_of_lt h0)
      omega

/-- **C8**: `apply_gain` and `normalize_audio` produce samples inside the
signed 16-bit range `[-32768, 32767]` for every 16-bit input frame and every
gain; values exceeding the range are clipped to the bounds (the closed
conjunct shows `32767 * 2` maps to the bound `32767`, not to the wrapped
value `-2`). -/
theorem gain_normalize_int16_range (audio : List Int) (g1 g2 : ℚ)
    (h : audio.all inInt16 = true) :
    (apply_gain audio g1).all inInt16 = true ∧
    (normalize_audio audio g2).all inInt16 = true ∧
    apply_gain [32767] 2 = [32767] := by
  have hmem : ∀ (g : ℚ) (y : Int),
      y ∈ audio.map (fun s => truncQ (clipQ ((s : ℚ) * g))) → inInt16 y = true := by
    intro g y hy
    rw [List.mem_map] at hy
    obtain ⟨s, _, rfl⟩ := hy
    have hr := truncQ_clipQ_range ((s : ℚ) * g)
    simp only [inInt16, decide_eq_true_eq]
    exact hr
  refine ⟨?_, ?_, ?_⟩
  · rw [List.all_eq_true]
    intro y hy
    exact hmem g1 y hy
  · unfold normalize_audio
    by_cases hz : (audio.map (fun s => s * s)).sum = 0
    · rw [if_pos hz]
      exact h
    · rw [if_neg hz]
      rw [List.all_eq_true]
      intro y hy
      exact hmem g2 y hy
  · simp [apply_gain, clipQ, truncQ]
    norm_num

/-- Witness for `gain_normalize_int16_range` at a concrete frame containing
both range extremes. -/
theorem gain_normalize_int16_range_witness :
    (apply_gain [-32768, 0, 32767] (3 / 2)).all inInt16 = true ∧
    (normalize_audio [-32768, 0, 32767] (1 / 3)).all inInt16 = true ∧
    apply_gain [32767] 2 = [32767] :=
  gain_normalize_int16_range [-32768, 0, 32767] (3 / 2) (1 / 3) (by decide)

/-! ## Text-to-speech route

Embedding of `speak_text` in `src/src/api/routes/voice.py`, whose control
flow is deterministic around external effects.  The effects enter as
parameters: `voices` holds the voice names from `tts_engine.list_voices()`,
`current_voice` is the engine's active (configured default) voice index,
`initialized` is `tts_engine.is_initialized`, and `speak_ok` is the result
of `tts_engine.speak_to_file`.  `get_best_tts_backend` always selects
pyttsx3, so only that branch exists.  The result models the HTTP outcome:
`Except.error` carries the raised status code, `Except.ok` carries the
engine voice index used for synthesis, whether the voice-not-found warning
was logged, and the response's `voice_used` field (the requested name,
verbatim). -/
/-- Python `str.lower()`, character by character (the voice names compared
by the route are ASCII). -/
def lowerStr (s : String) : String := ⟨s.data.map Char.toLower⟩

/-- Python `not text or len(text.strip()) == 0`: the text is empty or
whitespace-only. -/
def isBlank (s : String) : Bool := s.data.all Char.isWhitespace

def speak_text (voices : List String) (current_voice : Nat) (initialized : Bool)
    (speak_ok : Bool) (text voice : String) : Except Nat (Nat × Bool × String) :=
  if isBlank text then Except.error 400
  else if 5000 < text.length then Except.error 400
  else if initialized = false then Except.error 503
  else
    let sel : Nat × Bool :=
      if voice ≠ "" ∧ voice ≠ "default" then
        match voices.findIdx? (fun v => lowerStr v == lowerStr voice) with
        | some i => (i, false)
        | none => (current_voice, true)
      else (current_voice, false)
    if speak_ok = false then Except.error 500
    else Except.ok (sel.1, sel.2, voice)

/-- **C9**: a speak request whose requested voice (an actual name, not the
`"default"`/empty sentinel meaning "no specific voice") matches no
enumerated voice under case-insensitive comparison still completes
successfully: the engine stays on the configured default voice, the
"voice not found" warning is recorded, and the outcome is a success —
never an error status. -/
theorem speak_unknown_voice_fallback (voices : List String) (current_voice : Nat)
    (text voice : String)
    (htext : isBlank text = false) (hlen : text.length ≤ 5000)
    (hempty : voice ≠ "") (hdefault : voice ≠ "default")
    (hnomatch : ∀ v ∈ voices, lowerStr v ≠ lowerStr voice) :
    speak_text voices current_voice true true text voice =
      Except.ok (current_voice, true, voice) := by
  have hfind : voices.findIdx? (fun v => lowerStr v == lowerStr voice) = none := by
    rw [List.findIdx?_eq_none_iff]
    intro v hv
    simpa using hnomatch v hv
  unfold speak_text
  rw [if_neg (by simp [htext]), if_neg (by omega), if_neg (by simp)]
  simp [hempty, hdefault, hfind]

/-- Witness for `speak_unknown_voice_fallback` with a concrete request. -/
theorem speak_unknown_voice_fallback_witness :
    speak_text ["Alice", "Bob"] 0 true true "hi" "Carol" =
      Except.ok (0, true, "Carol") :=
  speak_unknown_voice_fallback ["Alice", "Bob"] 0 "hi" "Carol" (by decide)
    (by decide) (by decide) (by decide) (by decide)

end VoiceTalk
